import Mathlib

/-!
Verification of the WebSocket protocol engine of this repository (Go package
`tcp`): frame codec, handshake key derivation, message reassembly, outbound
fragmentation, and the two handshake validators.  Byte values are modelled as
`Nat` (< 256 on real byte streams), Go `uint16`/`uint32`/`uint64` arithmetic as
`Nat` with explicit `% 2^w` truncation, nil slices as `[]`, and Go runtime
panics / stream errors as `Option`/`Except` failures.
-/

/-- Big-endian byte decomposition, modelling `encoding/binary.BigEndian.PutUint16`
and `PutUint64` (the repository calls these on `uint16`/`uint64` values):
`beBytes k v` is the `k`-byte big-endian encoding of `v` truncated to `k` bytes. -/
def beBytes : Nat → Nat → List Nat
  | 0, _ => []
  | k + 1, v => (v / 256 ^ k) % 256 :: beBytes k v

/-- Big-endian byte recomposition, modelling `encoding/binary.BigEndian.Uint16`
and `Uint64`. -/
def beVal : List Nat → Nat
  | [] => 0
  | b :: bs => b * 256 ^ bs.length + beVal bs

/-- Reads exactly `n` bytes from the stream, modelling `io.ReadFull` on an
in-memory byte stream: `none` when fewer than `n` bytes remain (the Go code
surfaces this as an I/O error), otherwise the bytes read and the rest of the
stream. -/
def takeN : Nat → List Nat → Option (List Nat × List Nat)
  | 0, xs => some ([], xs)
  | _ + 1, [] => none
  | n + 1, x :: xs =>
    match takeN n xs with
    | none => none
    | some (taken, rest) => some (x :: taken, rest)

/-- XOR-masks a payload with a mask key, modelling the loops
`frame.Payload[i] ^= frame.MaskKey[i%4]` (`ReadFrame`, lines 378-382) and
`maskedPayload[i] = frame.Payload[i] ^ frame.MaskKey[i%4]` (`Client.sendFrame`,
lines 679-682).  Go indexing `MaskKey[i%4]` panics when `i % 4` is out of range
(e.g. an empty key with a non-empty payload); that panic is modelled as `none`. -/
def maskWith (key : List Nat) : Nat → List Nat → Option (List Nat)
  | _, [] => some []
  | i, b :: rest =>
    if h : i % 4 < key.length then
      match maskWith key (i + 1) rest with
      | none => none
      | some r => some ((b ^^^ key.get ⟨i % 4, h⟩) :: r)
    else none

/-- A WebSocket frame, modelling the `Frame` struct of the source. -/
structure Frame where
  Fin : Bool
  Opcode : Nat
  Masked : Bool
  PayloadLen : Nat
  MaskKey : List Nat
  Payload : List Nat
deriving DecidableEq, Repr

/-- A reassembled message, modelling the `Message` struct of the client. -/
structure Message where
  «Type» : Nat
  Payload : List Nat
deriving DecidableEq, Repr

/-- Models the extended-payload-length switch of `ReadFrame` (lines 300-316):
given the 7-bit length indicator and the remaining stream, returns the payload
length and the rest of the stream, `none` on a truncated stream. -/
def readLenField (len7 : Nat) (r : List Nat) : Option (Nat × List Nat) :=
  if len7 = 126 then
    match takeN 2 r with
    | none => none
    | some (ext, rest) => some (beVal ext, rest)
  else if len7 = 127 then
    match takeN 8 r with
    | none => none
    | some (ext, rest) => some (beVal ext, rest)
  else some (len7, r)

/-- Models the second half of `ReadFrame` (lines 326-385): reading the 4-byte
mask key when masked, reading `plen` payload bytes, and unmasking in place. -/
def readAfterLen (fin : Bool) (opcode : Nat) (masked : Bool) (plen : Nat)
    (r : List Nat) : Except String (Frame × List Nat) :=
  match (if masked then takeN 4 r else some ([], r)) with
  | none => Except.error "truncated stream"
  | some (mkey, r4) =>
    match takeN plen r4 with
    | none => Except.error "truncated stream"
    | some (raw, r5) =>
      match (if masked then maskWith mkey 0 raw else some raw) with
      | none => Except.error "mask key index out of range"
      | some payload =>
        Except.ok ({ Fin := fin, Opcode := opcode, Masked := masked,
                     PayloadLen := plen, MaskKey := mkey, Payload := payload }, r5)

/-- Models `ReadFrame` (lines 261-386) on an in-memory byte stream: decodes one
frame and returns it together with the unread rest of the stream.  Bit
extraction follows the source: FIN is bit 7 of byte 0, the opcode its low 4
bits; MASK is bit 7 of byte 1, the length indicator its low 7 bits. -/
def ReadFrame : List Nat → Except String (Frame × List Nat)
  | [] => Except.error "truncated stream"
  | [_] => Except.error "truncated stream"
  | b0 :: b1 :: r2 =>
    match readLenField (b1 &&& 0x7F) r2 with
    | none => Except.error "truncated stream"
    | some (plen, r3) =>
      readAfterLen ((b0 &&& 0x80) != 0) (b0 &&& 0x0F) ((b1 &&& 0x80) != 0) plen r3

/-- Models `Client.sendFrame` (lines 651-693): the byte sequence written to the
connection for a frame (header, then masked payload).  The source sets the mask
bit of byte 1 unconditionally (`| 0x80`) and always XORs the payload with
`frame.MaskKey`, whatever `frame.Masked` says; indexing an absent mask key
panics, modelled as `none`. -/
def Client.sendFrame (f : Frame) : Option (List Nat) :=
  let b0 := if f.Fin then 0x80 ||| f.Opcode else f.Opcode
  let lenBytes :=
    if f.PayloadLen ≤ 125 then [(f.PayloadLen % 256) ||| 0x80]
    else if f.PayloadLen ≤ 65535 then (126 ||| 0x80) :: beBytes 2 f.PayloadLen
    else (127 ||| 0x80) :: beBytes 8 f.PayloadLen
  match maskWith f.MaskKey 0 f.Payload with
  | none => none
  | some maskedPayload => some (b0 :: lenBytes ++ f.MaskKey ++ maskedPayload)

/-- Models the server's `sendFrame` (lines 507-532): a single unmasked text
frame, first byte 0x81, three-tier length field, payload written verbatim. -/
def sendFrame (payload : List Nat) : List Nat :=
  let payloadLen := payload.length
  let header :=
    if payloadLen ≤ 125 then [0x81, payloadLen % 256]
    else if payloadLen ≤ 65535 then 0x81 :: 126 :: beBytes 2 payloadLen
    else 0x81 :: 127 :: beBytes 8 payloadLen
  header ++ payload

/-- Truncation to 32 bits, modelling Go `uint32` arithmetic. -/
def w32 (x : Nat) : Nat := x % 4294967296

/-- 32-bit left rotation, as used by SHA-1. -/
def rotl (n x : Nat) : Nat := ((x <<< n) ||| (x >>> (32 - n))) % 4294967296

/-- SHA-1 message padding: 0x80, zeros to 56 mod 64, then the 64-bit big-endian
bit length.  Models the padding performed by `crypto/sha1`. -/
def sha1Pad (msg : List Nat) : List Nat :=
  let l := msg.length
  msg ++ 0x80 :: List.replicate ((120 - ((l + 1) % 64)) % 64) 0 ++ beBytes 8 (8 * l)

/-- Splits a byte list into 64-byte chunks (fuel-indexed so that the kernel can
evaluate it; each step consumes at least one element, so `l.length` fuel is
always enough). -/
def chunks64Fuel : Nat → List Nat → List (List Nat)
  | 0, _ => []
  | _, [] => []
  | fuel + 1, x :: rest => (x :: rest.take 63) :: chunks64Fuel fuel (rest.drop 63)

/-- Splits a byte list into 64-byte chunks. -/
def chunks64 (l : List Nat) : List (List Nat) := chunks64Fuel l.length l

/-- Groups a 64-byte block into 16 big-endian 32-bit words. -/
def toWords : List Nat → List Nat
  | b0 :: b1 :: b2 :: b3 :: rest => beVal [b0, b1, b2, b3] :: toWords rest
  | _ => []

/-- One step of the SHA-1 message-schedule extension; the list holds the words
produced so far, most recent first. -/
def extendStep (rw : List Nat) : List Nat :=
  rotl 1 (rw.getD 2 0 ^^^ rw.getD 7 0 ^^^ rw.getD 13 0 ^^^ rw.getD 15 0) :: rw

/-- The 80-word SHA-1 message schedule of one block, in order. -/
def sha1W (block : List Nat) : List Nat :=
  (Nat.iterate extendStep 64 (toWords block).reverse).reverse

/-- The SHA-1 round function. -/
def sha1F (i b c d : Nat) : Nat :=
  if i < 20 then (b &&& c) ||| ((b ^^^ 0xFFFFFFFF) &&& d)
  else if i < 40 then b ^^^ c ^^^ d
  else if i < 60 then (b &&& c) ||| (b &&& d) ||| (c &&& d)
  else b ^^^ c ^^^ d

/-- The SHA-1 round constants. -/
def sha1K (i : Nat) : Nat :=
  if i < 20 then 0x5A827999
  else if i < 40 then 0x6ED9EBA1
  else if i < 60 then 0x8F1BBCDC
  else 0xCA62C1D6

/-- The 80 SHA-1 compression rounds over the message schedule. -/
def sha1Rounds : List Nat → Nat → Nat × Nat × Nat × Nat × Nat → Nat × Nat × Nat × Nat × Nat
  | [], _, st => st
  | wi :: ws, i, (a, b, c, d, e) =>
    sha1Rounds ws (i + 1) (w32 (rotl 5 a + sha1F i b c d + e + sha1K i + wi), a, rotl 30 b, c, d)

/-- Processes one 64-byte block into the running SHA-1 state. -/
def sha1Block (st : Nat × Nat × Nat × Nat × Nat) (block : List Nat) :
    Nat × Nat × Nat × Nat × Nat :=
  match st, sha1Rounds (sha1W block) 0 st with
  | (h0, h1, h2, h3, h4), (a, b, c, d, e) =>
    (w32 (h0 + a), w32 (h1 + b), w32 (h2 + c), w32 (h3 + d), w32 (h4 + e))

/-- SHA-1 of a byte sequence, modelling `crypto/sha1` (`h.Write` then
`h.Sum(nil)`). -/
def sha1Bytes (msg : List Nat) : List Nat :=
  match (chunks64 (sha1Pad msg)).foldl sha1Block
      (0x67452301, 0xEFCDAB89, 0x98BADCFE, 0x10325476, 0xC3D2E1F0) with
  | (h0, h1, h2, h3, h4) =>
    beBytes 4 h0 ++ beBytes 4 h1 ++ beBytes 4 h2 ++ beBytes 4 h3 ++ beBytes 4 h4

/-- The standard base64 alphabet. -/
def b64Char (n : Nat) : Char :=
  "ABCDEFGHIJKLMNOPQRSTUVWXYZabcdefghijklmnopqrstuvwxyz0123456789+/".data.getD n 'A'

/-- Standard base64 with padding, modelling `base64.StdEncoding.EncodeToString`. -/
def base64Chars : List Nat → List Char
  | [] => []
  | [b0] => [b64Char (b0 / 4), b64Char (b0 % 4 * 16), '=', '=']
  | [b0, b1] => [b64Char (b0 / 4), b64Char (b0 % 4 * 16 + b1 / 16), b64Char (b1 % 16 * 4), '=']
  | b0 :: b1 :: b2 :: rest =>
    b64Char (b0 / 4) :: b64Char (b0 % 4 * 16 + b1 / 16) ::
      b64Char (b1 % 16 * 4 + b2 / 64) :: b64Char (b2 % 64) :: base64Chars rest

/-- Base64 encoding to a string. -/
def base64Encode (bs : List Nat) : String := String.mk (base64Chars bs)

/-- The bytes of an ASCII string (all strings involved in the handshake are
ASCII, so this equals Go's `[]byte(s)` UTF-8 conversion). -/
def strBytes (s : String) : List Nat := s.data.map Char.toNat

/-- The fixed WebSocket handshake GUID from the source (line 536). -/
def websocketGUID : String := "258EAFA5-E914-47DA-95CA-C5AB0DC85B11"

/-- Models `generateWebSocketAcceptKey` (lines 534-538):
base64(SHA-1(key ++ GUID)). -/
def generateWebSocketAcceptKey (key : String) : String :=
  base64Encode (sha1Bytes (strBytes (key ++ websocketGUID)))

/-- Maximum frame size used by the client's outbound fragmentation (line 555). -/
def MaxFrameSize : Nat := 65535

/-- Models `Frame.OpcodeName` (lines 389-406). -/
def Frame.OpcodeName (f : Frame) : String :=
  if f.Opcode = 0x0 then "continuation"
  else if f.Opcode = 0x1 then "text"
  else if f.Opcode = 0x2 then "binary"
  else if f.Opcode = 0x8 then "close"
  else if f.Opcode = 0x9 then "ping"
  else if f.Opcode = 0xA then "pong"
  else "unknown"

/-- The frame constructed by `Client.sendPong` (lines 798-808); `mk` stands for
the random mask key drawn by `generateMaskKey`, passed in as a parameter. -/
def Client.sendPongFrame (mk : List Nat) (payload : List Nat) : Frame :=
  { Fin := true, Opcode := 0xA, Masked := true,
    PayloadLen := payload.length, MaskKey := mk, Payload := payload }

/-- Models the loop of `Client.ReadFullMessage` (lines 752-796) on a list of
decoded frames.  `keys p` is the mask key `generateMaskKey` yields for the
`p`-th pong sent.  Returns the pong frames passed to `Client.sendFrame` (in
order) together with either the completed message and the unconsumed frames, or
the error returned. -/
def Client.ReadFullMessageAux (keys : Nat → List Nat) (p : Nat)
    (fullMessage : List Nat) (messageOpcode : Nat) :
    List Frame → List Frame × Except String (Message × List Frame)
  | [] => ([], Except.error "connection closed")
  | frame :: rest =>
    let name := frame.OpcodeName
    if name = "close" then ([], Except.error "received close frame")
    else if name = "ping" then
      let r := Client.ReadFullMessageAux keys (p + 1) fullMessage messageOpcode rest
      (Client.sendPongFrame (keys p) frame.Payload :: r.1, r.2)
    else if name = "pong" then Client.ReadFullMessageAux keys p fullMessage messageOpcode rest
    else
      if fullMessage.length = 0 then
        -- source comment at this branch: "This is the first fragment"
        let msgOp := frame.Opcode
        let full := fullMessage ++ frame.Payload
        if frame.Fin then ([], Except.ok ({ «Type» := msgOp, Payload := full }, rest))
        else Client.ReadFullMessageAux keys p full msgOp rest
      else if frame.Opcode ≠ 0x0 then
        ([], Except.error "protocol error: expected continuation frame")
      else
        let full := fullMessage ++ frame.Payload
        if frame.Fin then ([], Except.ok ({ «Type» := messageOpcode, Payload := full }, rest))
        else Client.ReadFullMessageAux keys p full messageOpcode rest

/-- `Client.ReadFullMessage` starting from the idle state (nil buffer, zero
message opcode), as the Go locals are initialised. -/
def Client.ReadFullMessage (keys : Nat → List Nat) (frames : List Frame) :
    List Frame × Except String (Message × List Frame) :=
  Client.ReadFullMessageAux keys 0 [] 0 frames

/-- Models `Client.sendFragmentedMessage` (lines 703-742): the list of frames
passed to `Client.sendFrame` for an outbound payload.  `keys i` is the mask key
`generateMaskKey` yields for the `i`-th frame. -/
def Client.sendFragmentedAux (keys : Nat → List Nat) (i : Nat) (remaining : List Nat)
    (firstFragment : Bool) (opcode : Nat) : List Frame :=
  if _h : remaining.length = 0 then []
  else if _hf : remaining.length ≤ MaxFrameSize then
    [{ Fin := true, Opcode := if firstFragment then opcode else 0x0, Masked := true,
       PayloadLen := remaining.length, MaskKey := keys i, Payload := remaining }]
  else
    { Fin := false, Opcode := if firstFragment then opcode else 0x0, Masked := true,
      PayloadLen := (remaining.take MaxFrameSize).length, MaskKey := keys i,
      Payload := remaining.take MaxFrameSize }
      :: Client.sendFragmentedAux keys (i + 1) (remaining.drop MaxFrameSize) false opcode
termination_by remaining.length
decreasing_by simp [MaxFrameSize] at *; omega

/-- `Client.sendFragmentedMessage` entry point: the first fragment carries
`opcode`, later ones the continuation opcode. -/
def Client.sendFragmentedMessage (keys : Nat → List Nat) (data : List Nat)
    (opcode : Nat) : List Frame :=
  Client.sendFragmentedAux keys 0 data true opcode

/-- Models `strings.Contains s sub`: case-sensitive substring containment. -/
def containsSubstr (s sub : String) : Bool := decide (sub.data <:+: s.data)

/-- Models the handshake validation and response of `handleWebSocket`
(lines 441-462): given the values of the `Connection`, `Upgrade` and
`Sec-WebSocket-Key` request headers (header names are canonicalised by
`net/http` before this point), returns the response string written, or `none`
when the handshake is rejected and the connection closed without writing
anything. -/
def handleWebSocketHandshake (connection upgrade key : String) : Option String :=
  if !containsSubstr connection "Upgrade" || upgrade != "websocket" then none
  else some ("HTTP/1.1 101 Switching Protocols\r\nUpgrade: websocket\r\nConnection: Upgrade\r\nSec-WebSocket-Accept: "
    ++ generateWebSocketAcceptKey key ++ "\r\n\r\n")

/-- The fixed JSON reply `handleWebSocket` sends for a parsed text message
(`Msg{Role: "agent", Content: "Okay i got it"}` marshalled, lines 500-502). -/
def serverReplyJson : String := "\x7b\"role\":\"agent\",\"content\":\"Okay i got it\"\x7d"

/-- Models the per-frame dispatch of `handleWebSocket` (lines 483-503): the byte
sequences written to the connection in response to one received frame.
`jsonOk` abstracts whether `json.Unmarshal` accepts the text payload (an
application-layer concern per the spec).  Close, ping and pong frames are only
logged: in particular nothing is written in reply to a ping. -/
def handleWebSocketFrame (jsonOk : List Nat → Bool) (frame : Frame) : List (List Nat) :=
  let name := frame.OpcodeName
  if name = "close" then []
  else if name = "ping" then []
  else if name = "pong" then []
  else if name = "text" then
    if jsonOk frame.Payload then [sendFrame (strBytes serverReplyJson)] else []
  else []

/-- Models the response validation of `Client.Handshake` (lines 636-645) on the
raw bytes read: `none` when the Go slice expression
`string(response[:n])[9:32]` panics (fewer than 32 bytes received), `some true`
when the handshake is accepted (`nil` return), `some false` when it returns the
"invalid handshake response" error. -/
def Client.Handshake (response : List Nat) : Option Bool :=
  if 32 ≤ response.length then
    some (decide ((response.drop 9).take 23 = strBytes "101 Switching Protocols"))
  else none

/-- Lower-cases an ASCII letter. -/
def lowerChar (c : Char) : Char :=
  if 'A' ≤ c ∧ c ≤ 'Z' then Char.ofNat (c.toNat + 32) else c

/-- Splits a character list at every occurrence of `sep`. -/
def splitList (sep : Char) : List Char → List (List Char)
  | [] => [[]]
  | c :: rest =>
    if c = sep then [] :: splitList sep rest
    else
      match splitList sep rest with
      | [] => [[c]]
      | t :: ts => (c :: t) :: ts

/-- Strips leading and trailing spaces. -/
def trimSp (l : List Char) : List Char :=
  ((l.dropWhile (· == ' ')).reverse.dropWhile (· == ' ')).reverse

/-- Modelled from the spec: the `Connection` header contains "Upgrade" as a
"case-insensitive token match" — the header value is split into comma-separated
tokens, each trimmed and compared case-insensitively with "upgrade".  Used only
to contrast the spec's required handshake condition with the code's actual
one (`strings.Contains`). -/
def spec_connectionTokenMatch (v : String) : Bool :=
  (splitList ',' v.data).any fun t => (trimSp t).map lowerChar = "upgrade".data

/-- A fixed mask-key source used for concrete examples. -/
def fixedKeys : Nat → List Nat := fun _ => [1, 2, 3, 4]

/-- Always-accepting stand-in for the application-layer JSON check. -/
def jsonAlways : List Nat → Bool := fun _ => true

/-- A masked fin=true text frame with an `n`-byte zero payload, used to check the
length-encoding tiers. -/
def tierFrame (n : Nat) : Frame :=
  { Fin := true, Opcode := 1, Masked := true, PayloadLen := n,
    MaskKey := [1, 2, 3, 4], Payload := List.replicate n 0 }

-- Helper lemmas -------------------------------------------------------------

theorem beBytes_length (k v : Nat) : (beBytes k v).length = k := by
  induction k generalizing v with
  | zero => rfl
  | succ k ih => simp [beBytes, ih]

theorem beVal_beBytes (k v : Nat) : beVal (beBytes k v) = v % 256 ^ k := by
  induction k generalizing v with
  | zero => simp [beBytes, beVal, Nat.mod_one]
  | succ k ih =>
    have h : (256 : Nat) ^ (k + 1) = 256 ^ k * 256 := by ring
    rw [beBytes, beVal, beBytes_length, ih, h, Nat.mod_mul]
    ring

theorem takeN_append (xs ys : List Nat) : takeN xs.length (xs ++ ys) = some (xs, ys) := by
  induction xs with
  | nil => rfl
  | cons x xs ih => simp [takeN, ih]

theorem maskWith_exists (key : List Nat) (hk : key.length = 4) :
    ∀ (pl : List Nat) (i : Nat), ∃ mp, maskWith key i pl = some mp ∧ mp.length = pl.length := by
  intro pl
  induction pl with
  | nil => intro i; exact ⟨[], rfl, rfl⟩
  | cons b rest ih =>
    intro i
    obtain ⟨mp, hmp, hlen⟩ := ih (i + 1)
    have hlt : i % 4 < key.length := by omega
    refine ⟨(b ^^^ key.get ⟨i % 4, hlt⟩) :: mp, ?_, by simp [hlen]⟩
    simp [maskWith, hlt, hmp]

theorem maskWith_involutive (key : List Nat) (hk : key.length = 4) :
    ∀ (pl mp : List Nat) (i : Nat), maskWith key i pl = some mp →
      maskWith key i mp = some pl := by
  intro pl
  induction pl with
  | nil =>
    intro mp i h
    simp [maskWith] at h
    subst h
    rfl
  | cons b rest ih =>
    intro mp i h
    have hlt : i % 4 < key.length := by omega
    simp [maskWith, hlt] at h
    rcases hrec : maskWith key (i + 1) rest with _ | r
    · rw [hrec] at h; simp at h
    · rw [hrec] at h
      simp at h
      subst h
      have := ih r (i + 1) hrec
      simp [maskWith, hlt, this, Nat.xor_cancel_right]

theorem or16_bits (op : Nat) (h : op < 16) :
    ((128 ||| op) &&& 128 = 128) ∧ ((128 ||| op) &&& 15 = op) ∧
      (op &&& 128 = 0) ∧ (op &&& 15 = op) := by
  interval_cases op <;> decide

theorem or125_bits (n : Nat) (h : n ≤ 125) :
    ((n ||| 128) &&& 128 = 128) ∧ ((n ||| 128) &&& 127 = n) ∧
      (n &&& 128 = 0) ∧ (n &&& 127 = n) := by
  interval_cases n <;> decide

theorem readAfterLen_masked (fin : Bool) (op plen : Nat) (key raw pl r5 : List Nat)
    (hk : key.length = 4) (hraw : maskWith key 0 raw = some pl) (hlen : raw.length = plen) :
    readAfterLen fin op true plen (key ++ (raw ++ r5)) =
      Except.ok ({ Fin := fin, Opcode := op, Masked := true,
                   PayloadLen := plen, MaskKey := key, Payload := pl }, r5) := by
  have h4 : takeN 4 (key ++ (raw ++ r5)) = some (key, raw ++ r5) := by
    rw [← hk, takeN_append]
  have hp : takeN plen (raw ++ r5) = some (raw, r5) := by
    rw [← hlen, takeN_append]
  simp [readAfterLen, h4, hp, hraw]

theorem readAfterLen_unmasked (fin : Bool) (op plen : Nat) (raw r5 : List Nat)
    (hlen : raw.length = plen) :
    readAfterLen fin op false plen (raw ++ r5) =
      Except.ok ({ Fin := fin, Opcode := op, Masked := false,
                   PayloadLen := plen, MaskKey := [], Payload := raw }, r5) := by
  have hp : takeN plen (raw ++ r5) = some (raw, r5) := by
    rw [← hlen, takeN_append]
  simp [readAfterLen, hp]

theorem fin_bit (fin : Bool) (op : Nat) (h : op < 16) :
    (((if fin then 128 ||| op else op) &&& 128) != 0) = fin := by
  cases fin
  · simp [(or16_bits op h).2.2.1]
  · simp [(or16_bits op h).1]

theorem fin_opcode (fin : Bool) (op : Nat) (h : op < 16) :
    ((if fin then 128 ||| op else op) &&& 15) = op := by
  cases fin
  · simp [(or16_bits op h).2.2.2]
  · simp [(or16_bits op h).2.1]

/-- Core round-trip: a valid masked frame encoded by `Client.sendFrame` decodes
back to itself, consuming exactly the encoded bytes. -/
theorem sendFrame_ReadFrame (f : Frame) (extra : List Nat)
    (hm : f.Masked = true) (hk : f.MaskKey.length = 4) (hop : f.Opcode < 16)
    (hlen : f.PayloadLen = f.Payload.length) (h64 : f.PayloadLen < 2 ^ 64) :
    ∃ enc, Client.sendFrame f = some enc ∧ ReadFrame (enc ++ extra) = Except.ok (f, extra) := by
  obtain ⟨mp, hmp, hmplen⟩ := maskWith_exists f.MaskKey hk f.Payload 0
  have hunmask : maskWith f.MaskKey 0 mp = some f.Payload :=
    maskWith_involutive f.MaskKey hk f.Payload mp 0 hmp
  have hmplen' : mp.length = f.PayloadLen := by rw [hmplen, hlen]
  obtain ⟨fin, op, masked, plen, key, pl⟩ := f
  simp only at hm hk hop hlen h64 hmp hunmask hmplen hmplen' ⊢
  subst hm
  by_cases h1 : plen ≤ 125
  · -- 7-bit tier
    have h256 : plen % 256 = plen := Nat.mod_eq_of_lt (by omega)
    have hsend : Client.sendFrame ⟨fin, op, true, plen, key, pl⟩
        = some ((if fin then 128 ||| op else op) :: (plen ||| 128) :: (key ++ mp)) := by
      simp [Client.sendFrame, h1, hmp, h256]
    refine ⟨_, hsend, ?_⟩
    simp only [List.cons_append, List.append_assoc]
    rw [ReadFrame]
    rw [(or125_bits plen h1).2.1]
    have hne : readLenField plen (key ++ (mp ++ extra)) = some (plen, key ++ (mp ++ extra)) := by
      rw [readLenField, if_neg (by omega), if_neg (by omega)]
    rw [hne]
    rw [fin_bit fin op hop, fin_opcode fin op hop, (or125_bits plen h1).1]
    show readAfterLen fin op true plen (key ++ (mp ++ extra)) = _
    rw [readAfterLen_masked fin op plen key mp pl extra hk hunmask hmplen']
  · by_cases h2 : plen ≤ 65535
    · -- 16-bit tier
      have h254 : (126 ||| 128 : Nat) = 254 := by decide
      have hsend : Client.sendFrame ⟨fin, op, true, plen, key, pl⟩
          = some ((if fin then 128 ||| op else op) :: 254 :: (beBytes 2 plen ++ (key ++ mp))) := by
        simp [Client.sendFrame, h1, h2, hmp, h254]
      refine ⟨_, hsend, ?_⟩
      simp only [List.cons_append, List.append_assoc]
      rw [ReadFrame]
      have hb : (254 &&& 127 : Nat) = 126 := by decide
      rw [hb]
      have htake : takeN 2 (beBytes 2 plen ++ (key ++ (mp ++ extra)))
          = some (beBytes 2 plen, key ++ (mp ++ extra)) := by
        have := takeN_append (beBytes 2 plen) (key ++ (mp ++ extra))
        rwa [beBytes_length] at this
      have hlenf : readLenField 126 (beBytes 2 plen ++ (key ++ (mp ++ extra)))
          = some (plen, key ++ (mp ++ extra)) := by
        rw [readLenField, if_pos rfl, htake]
        show some (beVal (beBytes 2 plen), key ++ (mp ++ extra)) = _
        rw [beVal_beBytes]
        congr 2
        omega
      rw [hlenf]
      rw [fin_bit fin op hop, fin_opcode fin op hop]
      have hmb : ((254 &&& 128 : Nat) != 0) = true := by decide
      rw [hmb]
      exact readAfterLen_masked fin op plen key mp pl extra hk hunmask hmplen'
    · -- 64-bit tier
      have h255 : (127 ||| 128 : Nat) = 255 := by decide
      have hsend : Client.sendFrame ⟨fin, op, true, plen, key, pl⟩
          = some ((if fin then 128 ||| op else op) :: 255 :: (beBytes 8 plen ++ (key ++ mp))) := by
        simp [Client.sendFrame, h1, h2, hmp, h255]
      refine ⟨_, hsend, ?_⟩
      simp only [List.cons_append, List.append_assoc]
      rw [ReadFrame]
      have hb : (255 &&& 127 : Nat) = 127 := by decide
      rw [hb]
      have htake : takeN 8 (beBytes 8 plen ++ (key ++ (mp ++ extra)))
          = some (beBytes 8 plen, key ++ (mp ++ extra)) := by
        have := takeN_append (beBytes 8 plen) (key ++ (mp ++ extra))
        rwa [beBytes_length] at this
      have hlenf : readLenField 127 (beBytes 8 plen ++ (key ++ (mp ++ extra)))
          = some (plen, key ++ (mp ++ extra)) := by
        rw [readLenField, if_neg (by omega), if_pos rfl, htake]
        show some (beVal (beBytes 8 plen), key ++ (mp ++ extra)) = _
        rw [beVal_beBytes]
        congr 2
        have h28 : (256 : Nat) ^ 8 = 2 ^ 64 := by norm_num
        rw [h28]
        exact Nat.mod_eq_of_lt h64
      rw [hlenf]
      rw [fin_bit fin op hop, fin_opcode fin op hop]
      have hmb : ((255 &&& 128 : Nat) != 0) = true := by decide
      rw [hmb]
      exact readAfterLen_masked fin op plen key mp pl extra hk hunmask hmplen'

/-- Server frames decode back to a single unmasked fin=true text frame. -/
theorem sendFrame_server_ReadFrame (payload : List Nat) (h64 : payload.length < 2 ^ 64) :
    ReadFrame (sendFrame payload) =
      Except.ok ({ Fin := true, Opcode := 1, Masked := false,
                   PayloadLen := payload.length, MaskKey := [], Payload := payload }, []) := by
  have hfin : ((129 &&& 128 : Nat) != 0) = true := by decide
  have hop : (129 &&& 15 : Nat) = 1 := by decide
  have hafter := readAfterLen_unmasked true 1 payload.length payload [] rfl
  rw [List.append_nil] at hafter
  by_cases h1 : payload.length ≤ 125
  · have h256 : payload.length % 256 = payload.length := Nat.mod_eq_of_lt (by omega)
    have hshape : sendFrame payload = 129 :: payload.length :: payload := by
      simp [sendFrame, h1, h256]
    rw [hshape, ReadFrame]
    rw [(or125_bits payload.length h1).2.2.2]
    have hne : readLenField payload.length payload = some (payload.length, payload) := by
      rw [readLenField, if_neg (by omega), if_neg (by omega)]
    rw [hne, hfin, hop]
    have hmb : ((payload.length &&& 128 : Nat) != 0) = false := by
      simp [(or125_bits payload.length h1).2.2.1]
    rw [hmb]
    exact hafter
  · by_cases h2 : payload.length ≤ 65535
    · have hshape : sendFrame payload = 129 :: 126 :: (beBytes 2 payload.length ++ payload) := by
        simp [sendFrame, h1, h2]
      rw [hshape, ReadFrame]
      have hb : (126 &&& 127 : Nat) = 126 := by decide
      rw [hb]
      have htake : takeN 2 (beBytes 2 payload.length ++ payload)
          = some (beBytes 2 payload.length, payload) := by
        have := takeN_append (beBytes 2 payload.length) payload
        rwa [beBytes_length] at this
      have hlenf : readLenField 126 (beBytes 2 payload.length ++ payload)
          = some (payload.length, payload) := by
        rw [readLenField, if_pos rfl, htake]
        show some (beVal (beBytes 2 payload.length), payload) = _
        rw [beVal_beBytes]
        congr 2
        omega
      rw [hlenf, hfin, hop]
      have hmb : ((126 &&& 128 : Nat) != 0) = false := by decide
      rw [hmb]
      exact hafter
    · have hshape : sendFrame payload = 129 :: 127 :: (beBytes 8 payload.length ++ payload) := by
        simp [sendFrame, h1, h2]
      rw [hshape, ReadFrame]
      have hb : (127 &&& 127 : Nat) = 127 := by decide
      rw [hb]
      have htake : takeN 8 (beBytes 8 payload.length ++ payload)
          = some (beBytes 8 payload.length, payload) := by
        have := takeN_append (beBytes 8 payload.length) payload
        rwa [beBytes_length] at this
      have hlenf : readLenField 127 (beBytes 8 payload.length ++ payload)
          = some (payload.length, payload) := by
        rw [readLenField, if_neg (by omega), if_pos rfl, htake]
        show some (beVal (beBytes 8 payload.length), payload) = _
        rw [beVal_beBytes]
        congr 2
        have h28 : (256 : Nat) ^ 8 = 2 ^ 64 := by norm_num
        rw [h28]
        exact Nat.mod_eq_of_lt h64
      rw [hlenf, hfin, hop]
      have hmb : ((127 &&& 128 : Nat) != 0) = false := by decide
      rw [hmb]
      exact hafter

/-- Invariants of the outbound fragmentation loop. -/
theorem sendFragmentedAux_spec (keys : Nat → List Nat) (opcode : Nat) :
    ∀ (N : Nat) (remaining : List Nat) (i : Nat) (firstFragment : Bool),
      remaining.length ≤ N →
      (((Client.sendFragmentedAux keys i remaining firstFragment opcode).map
          Frame.Payload).flatten = remaining)
      ∧ (Client.sendFragmentedAux keys i remaining firstFragment opcode = []
          ↔ remaining = [])
      ∧ ((Client.sendFragmentedAux keys i remaining firstFragment opcode).all
          (fun fr => decide (fr.Payload.length ≤ MaxFrameSize)) = true)
      ∧ (remaining ≠ [] →
          (Client.sendFragmentedAux keys i remaining firstFragment opcode).map Frame.Opcode
            = (if firstFragment then opcode else 0x0) ::
              List.replicate
                ((Client.sendFragmentedAux keys i remaining firstFragment opcode).length - 1) 0)
      ∧ (remaining ≠ [] →
          (Client.sendFragmentedAux keys i remaining firstFragment opcode).map Frame.Fin
            = List.replicate
                ((Client.sendFragmentedAux keys i remaining firstFragment opcode).length - 1)
                false ++ [true]) := by
  intro N
  induction N with
  | zero =>
    intro remaining i firstFragment hN
    have hnil : remaining = [] := List.length_eq_zero.1 (by omega)
    subst hnil
    rw [Client.sendFragmentedAux]
    simp
  | succ N ih =>
    intro remaining i firstFragment hN
    by_cases h0 : remaining.length = 0
    · have hnil : remaining = [] := List.length_eq_zero.1 h0
      subst hnil
      rw [Client.sendFragmentedAux]
      simp
    · by_cases hf : remaining.length ≤ MaxFrameSize
      · have hfs : Client.sendFragmentedAux keys i remaining firstFragment opcode
            = [{ Fin := true, Opcode := if firstFragment then opcode else 0x0, Masked := true,
                 PayloadLen := remaining.length, MaskKey := keys i, Payload := remaining }] := by
          rw [Client.sendFragmentedAux]
          simp [h0, hf]
        have hrne : remaining ≠ [] := fun hh => h0 (by simp [hh])
        rw [hfs]
        refine ⟨by simp, by simp [hrne], by simp [hf], ?_, ?_⟩
        · intro _; simp
        · intro _; simp
      · have hrec := ih (remaining.drop MaxFrameSize) (i + 1) false
          (by simp [MaxFrameSize] at *; omega)
        obtain ⟨hjoin, hnil, hall, hops, hfins⟩ := hrec
        have hfs : Client.sendFragmentedAux keys i remaining firstFragment opcode
            = { Fin := false, Opcode := if firstFragment then opcode else 0x0, Masked := true,
                PayloadLen := (remaining.take MaxFrameSize).length, MaskKey := keys i,
                Payload := remaining.take MaxFrameSize }
              :: Client.sendFragmentedAux keys (i + 1) (remaining.drop MaxFrameSize)
                  false opcode := by
          rw [Client.sendFragmentedAux]
          simp [h0, hf]
        have hdropne : remaining.drop MaxFrameSize ≠ [] := by
          intro h
          have := congrArg List.length h
          simp at this
          omega
        have htailne : Client.sendFragmentedAux keys (i + 1) (remaining.drop MaxFrameSize)
            false opcode ≠ [] := by
          intro h
          exact hdropne (hnil.1 h)
        obtain ⟨t0, ts, hts⟩ : ∃ t0 ts,
            Client.sendFragmentedAux keys (i + 1) (remaining.drop MaxFrameSize) false opcode
              = t0 :: ts := by
          rcases hc : Client.sendFragmentedAux keys (i + 1) (remaining.drop MaxFrameSize)
            false opcode with _ | ⟨t0, ts⟩
          · exact absurd hc htailne
          · exact ⟨t0, ts, rfl⟩
        have hrne : remaining ≠ [] := fun hh => h0 (by simp [hh])
        rw [hfs]
        refine ⟨?_, ?_, ?_, ?_, ?_⟩
        · simp only [List.map_cons, List.flatten_cons, hjoin]
          exact List.take_append_drop MaxFrameSize remaining
        · simp [hrne]
        · simp only [List.all_cons, hall, Bool.and_true]
          simp [List.length_take]
        · intro _
          have hthis := hops hdropne
          rw [hts] at hthis
          simp only [Bool.false_eq_true, if_false, List.length_cons,
            Nat.add_sub_cancel] at hthis
          rw [hts, List.map_cons, hthis]
          simp only [List.length_cons, Nat.add_sub_cancel]
          rw [List.replicate_succ]
        · intro _
          have hthis := hfins hdropne
          rw [hts] at hthis
          simp only [List.length_cons, Nat.add_sub_cancel] at hthis
          rw [hts, List.map_cons, hthis]
          simp only [List.length_cons, Nat.add_sub_cancel]
          rw [List.replicate_succ, List.cons_append]
-- Claim theorems (appended to Spec2Proof.lean after testing)

/-- Shape of the client encoder's output: header byte, length bytes, mask key,
masked payload. -/
theorem sendFrame_shape (f : Frame) (hk : f.MaskKey.length = 4) :
    ∃ mp, maskWith f.MaskKey 0 f.Payload = some mp ∧ mp.length = f.Payload.length ∧
      Client.sendFrame f = some ((if f.Fin then 128 ||| f.Opcode else f.Opcode) ::
        (if f.PayloadLen ≤ 125 then [(f.PayloadLen % 256) ||| 128]
         else if f.PayloadLen ≤ 65535 then (126 ||| 128) :: beBytes 2 f.PayloadLen
         else (127 ||| 128) :: beBytes 8 f.PayloadLen) ++ f.MaskKey ++ mp) := by
  obtain ⟨mp, hmp, hlen⟩ := maskWith_exists f.MaskKey hk f.Payload 0
  refine ⟨mp, hmp, hlen, ?_⟩
  simp only [Client.sendFrame, hmp]

/-- C1 (amended): for every valid *masked* frame — `masked = true`, a 4-byte mask
key, `payload_length` equal to the payload's length and below 2^64, a 4-bit
opcode — decoding the byte sequence produced by `Client.sendFrame` yields the
frame back, and bit 7 of byte 1 of the encoding is set.  (The encoder sets that
bit unconditionally, so "set iff masked" holds on masked frames only; see the
counterexample for unmasked frames.) -/
theorem c1_masked_roundtrip (f : Frame) (extra : List Nat)
    (hm : f.Masked = true) (hk : f.MaskKey.length = 4) (hop : f.Opcode < 16)
    (hlen : f.PayloadLen = f.Payload.length) (h64 : f.PayloadLen < 2 ^ 64) :
    ∃ enc b1, Client.sendFrame f = some enc ∧ ReadFrame (enc ++ extra) = Except.ok (f, extra)
      ∧ enc.get? 1 = some b1 ∧ b1 &&& 128 = 128 := by
  obtain ⟨enc, hsend, hread⟩ := sendFrame_ReadFrame f extra hm hk hop hlen h64
  obtain ⟨mp, _, _, hshape⟩ := sendFrame_shape f hk
  rw [hsend] at hshape
  have henc : enc = (if f.Fin then 128 ||| f.Opcode else f.Opcode) ::
      (if f.PayloadLen ≤ 125 then [(f.PayloadLen % 256) ||| 128]
       else if f.PayloadLen ≤ 65535 then (126 ||| 128) :: beBytes 2 f.PayloadLen
       else (127 ||| 128) :: beBytes 8 f.PayloadLen) ++ f.MaskKey ++ mp := by
    exact Option.some.inj hshape
  by_cases h1 : f.PayloadLen ≤ 125
  · have h256 : f.PayloadLen % 256 = f.PayloadLen := Nat.mod_eq_of_lt (by omega)
    refine ⟨enc, (f.PayloadLen ||| 128), hsend, hread, ?_, (or125_bits _ h1).1⟩
    rw [henc]
    simp [h1, h256]
  · by_cases h2 : f.PayloadLen ≤ 65535
    · refine ⟨enc, 254, hsend, hread, ?_, by decide⟩
      rw [henc]
      have h254 : (126 ||| 128 : Nat) = 254 := by decide
      simp [h1, h2, h254]
    · refine ⟨enc, 255, hsend, hread, ?_, by decide⟩
      rw [henc]
      have h255 : (127 ||| 128 : Nat) = 255 := by decide
      simp [h1, h2, h255]

/-- Witness for C1 at a concrete masked frame. -/
theorem c1_witness :
    ∃ enc b1, Client.sendFrame ⟨true, 1, true, 2, [1, 2, 3, 4], [10, 20]⟩ = some enc
      ∧ ReadFrame (enc ++ []) = Except.ok (⟨true, 1, true, 2, [1, 2, 3, 4], [10, 20]⟩, [])
      ∧ enc.get? 1 = some b1 ∧ b1 &&& 128 = 128 :=
  c1_masked_roundtrip ⟨true, 1, true, 2, [1, 2, 3, 4], [10, 20]⟩ [] rfl rfl
    (by decide) rfl (by decide)

/-- C1 counterexample: a valid *unmasked* frame (fin, text opcode, empty payload,
no mask key) encodes to [0x81, 0x80] — the mask bit of byte 1 is set although the
frame is unmasked — and decoding that encoding fails instead of returning the
frame. -/
theorem c1_counterexample :
    Client.sendFrame ⟨true, 1, false, 0, [], []⟩ = some [129, 128]
    ∧ (⟨true, 1, false, 0, [], []⟩ : Frame).Masked = false
    ∧ (128 &&& 128 : Nat) ≠ 0
    ∧ ReadFrame [129, 128] = Except.error "truncated stream" := by
  refine ⟨rfl, rfl, by decide, rfl⟩

set_option maxRecDepth 10000 in
/-- C2: for every handshake key the computed accept value is
base64(SHA-1(key ++ "258EAFA5-E914-47DA-95CA-C5AB0DC85B11")), and for the
RFC 6455 sample key "dGhlIHNhbXBsZSBub25jZQ==" it equals
"s3pPLMBiTxaQ9kYGzzhZRbK+xOo=". -/
theorem c2_accept_key :
    (∀ key : String, generateWebSocketAcceptKey key
        = base64Encode (sha1Bytes (strBytes key ++ strBytes websocketGUID)))
    ∧ generateWebSocketAcceptKey "dGhlIHNhbXBsZSBub25jZQ==" = "s3pPLMBiTxaQ9kYGzzhZRbK+xOo=" := by
  constructor
  · intro key
    unfold generateWebSocketAcceptKey strBytes
    rw [String.data_append, List.map_append]
  · decide

/-- C3: the claim's example sequence [text fin=false "He"], [continuation
fin=false "ll"], [continuation fin=true "o"] reassembles to a text message
"Hello"; but when the first (text) fragment has an empty payload, the emitted
message kind is the *continuation* opcode 0x0 of a later frame, not the first
frame's text opcode 0x1 — the code derives the kind from whichever frame
arrives while the buffer is empty, contradicting the claim (and the code's own
"This is the first fragment" comment). -/
theorem c3_reassembly :
    Client.ReadFullMessage fixedKeys
        [⟨false, 1, true, 2, [1, 2, 3, 4], [72, 101]⟩,
         ⟨false, 0, true, 2, [1, 2, 3, 4], [108, 108]⟩,
         ⟨true, 0, true, 1, [1, 2, 3, 4], [111]⟩]
      = ([], Except.ok ({ «Type» := 1, Payload := [72, 101, 108, 108, 111] }, []))
    ∧ Client.ReadFullMessage fixedKeys
        [⟨false, 1, true, 0, [1, 2, 3, 4], []⟩, ⟨true, 0, true, 1, [1, 2, 3, 4], [97]⟩]
      = ([], Except.ok ({ «Type» := 0, Payload := [97] }, [])) := by
  exact ⟨rfl, rfl⟩

/-- C4 (amended): a continuation frame received while the reassembler is idle is
*accepted*, not rejected: no error is raised, and with fin=true a Message whose
kind is the continuation opcode 0x0 is emitted immediately. -/
theorem c4_idle_continuation (keys : Nat → List Nat) (p : Nat) (P mk : List Nat)
    (rest : List Frame) :
    Client.ReadFullMessageAux keys p [] 0 (⟨true, 0, true, P.length, mk, P⟩ :: rest)
      = ([], Except.ok ({ «Type» := 0, Payload := P }, rest)) := by
  simp [Client.ReadFullMessageAux, Frame.OpcodeName]

/-- C4 counterexample: a single continuation frame (fin=true, payload [0x78])
arriving while idle yields an emitted Message, not a protocol error. -/
theorem c4_counterexample :
    Client.ReadFullMessage fixedKeys [⟨true, 0, true, 1, [9, 9, 9, 9], [120]⟩]
      = ([], Except.ok ({ «Type» := 0, Payload := [120] }, [])) := rfl

/-- C5 (amended): the sender splits any *non-empty* payload into chunks of at
most MaxFrameSize = 65535 bytes whose concatenation is the payload, the first
chunk carrying the real opcode, every later chunk the continuation opcode 0x0,
and fin=true on exactly the last chunk; a zero-length payload, however, produces
*no* frame at all (the send loop never runs). -/
theorem c5_fragmentation (keys : Nat → List Nat) (data : List Nat) (opcode : Nat) :
    (((Client.sendFragmentedMessage keys data opcode).map Frame.Payload).flatten = data)
    ∧ ((Client.sendFragmentedMessage keys data opcode).all
        (fun fr => decide (fr.Payload.length ≤ MaxFrameSize)) = true)
    ∧ (Client.sendFragmentedMessage keys data opcode = [] ↔ data = [])
    ∧ ((Client.sendFragmentedMessage keys data opcode).map Frame.Opcode
        = if data = [] then []
          else opcode ::
            List.replicate ((Client.sendFragmentedMessage keys data opcode).length - 1) 0)
    ∧ ((Client.sendFragmentedMessage keys data opcode).map Frame.Fin
        = if data = [] then []
          else List.replicate ((Client.sendFragmentedMessage keys data opcode).length - 1)
            false ++ [true]) := by
  obtain ⟨hjoin, hnil, hall, hops, hfins⟩ :=
    sendFragmentedAux_spec keys opcode data.length data 0 true le_rfl
  refine ⟨hjoin, hall, hnil, ?_, ?_⟩
  · by_cases hd : data = []
    · rw [if_pos hd]
      rw [show Client.sendFragmentedMessage keys data opcode = [] from hnil.2 hd]
      rfl
    · rw [if_neg hd]
      simpa using hops hd
  · by_cases hd : data = []
    · rw [if_pos hd]
      rw [show Client.sendFragmentedMessage keys data opcode = [] from hnil.2 hd]
      rfl
    · rw [if_neg hd]
      exact hfins hd

/-- C5 counterexample: a zero-length payload is not sent as one empty fin frame —
no frame at all is produced. -/
theorem c5_counterexample : Client.sendFragmentedMessage fixedKeys [] 1 = [] := by
  rw [Client.sendFragmentedMessage, Client.sendFragmentedAux]
  simp

/-- C6 (amended): the *client* session, on a ping frame with payload P at any
point of the stream (any buffered state), sends exactly one pong frame carrying
P before processing any subsequent frame, leaving the fragmentation state
(buffer and pending opcode) unchanged — illustrated also mid-fragmentation on
a concrete interleaved stream; the *server* session sends nothing in reply to a
ping (see the counterexample). -/
theorem c6_ping_pong (keys : Nat → List Nat) (p : Nat) (full : List Nat) (opc : Nat)
    (P mk : List Nat) (fin : Bool) (rest : List Frame) :
    (Client.ReadFullMessageAux keys p full opc (⟨fin, 9, true, P.length, mk, P⟩ :: rest)
      = (Client.sendPongFrame (keys p) P ::
          (Client.ReadFullMessageAux keys (p + 1) full opc rest).1,
         (Client.ReadFullMessageAux keys (p + 1) full opc rest).2))
    ∧ (Client.sendPongFrame (keys p) P).Opcode = 0xA
    ∧ (Client.sendPongFrame (keys p) P).Payload = P
    ∧ (Client.sendPongFrame (keys p) P).Fin = true
    ∧ Client.ReadFullMessage fixedKeys
        [⟨false, 1, true, 2, [1, 2, 3, 4], [72, 101]⟩,
         ⟨true, 9, true, 1, [1, 2, 3, 4], [120]⟩,
         ⟨true, 0, true, 3, [1, 2, 3, 4], [108, 108, 111]⟩]
      = ([Client.sendPongFrame [1, 2, 3, 4] [120]],
         Except.ok ({ «Type» := 1, Payload := [72, 101, 108, 108, 111] }, [])) := by
  refine ⟨?_, rfl, rfl, rfl, rfl⟩
  simp [Client.ReadFullMessageAux, Frame.OpcodeName]

/-- C6 counterexample: the server session writes nothing in response to a ping
frame (payload "hi") — in particular it does not emit a pong. -/
theorem c6_counterexample :
    handleWebSocketFrame jsonAlways ⟨true, 9, true, 2, [1, 2, 3, 4], [104, 105]⟩ = [] := rfl

/-- C7 (amended): the server handshake succeeds — writing the 101 Switching
Protocols response carrying the Sec-WebSocket-Accept value — exactly when the
Connection header contains the *case-sensitive substring* "Upgrade"
(`strings.Contains`, not the case-insensitive token match the claim states) and
the Upgrade header equals "websocket"; otherwise nothing is written and the
connection is closed. -/
theorem c7_handshake (c u k : String) :
    ((handleWebSocketHandshake c u k ≠ none)
      ↔ (containsSubstr c "Upgrade" = true ∧ u = "websocket"))
    ∧ (handleWebSocketHandshake c u k).all
        (fun r => containsSubstr r "HTTP/1.1 101 Switching Protocols"
          && containsSubstr r (generateWebSocketAcceptKey k)) = true := by
  by_cases hc : containsSubstr c "Upgrade" = true
  · by_cases hu : u = "websocket"
    · subst hu
      have hcond : (!containsSubstr c "Upgrade" || "websocket" != "websocket") = false := by
        simp [hc]
      rw [handleWebSocketHandshake, hcond]
      simp only [Bool.false_eq_true, if_false, ne_eq, Option.some_ne_none,
        not_false_eq_true, true_iff, Option.all_some]
      refine ⟨by simp [hc], ?_⟩
      rw [Bool.and_eq_true]
      constructor
      · simp only [containsSubstr, decide_eq_true_eq]
        have hps : ("HTTP/1.1 101 Switching Protocols\r\nUpgrade: websocket\r\nConnection: Upgrade\r\nSec-WebSocket-Accept: " : String)
            = "HTTP/1.1 101 Switching Protocols" ++ "\r\nUpgrade: websocket\r\nConnection: Upgrade\r\nSec-WebSocket-Accept: " := rfl
        have h1 : ("HTTP/1.1 101 Switching Protocols" : String).data
            <+: ("HTTP/1.1 101 Switching Protocols\r\nUpgrade: websocket\r\nConnection: Upgrade\r\nSec-WebSocket-Accept: " : String).data := by
          rw [hps, String.data_append]
          exact List.prefix_append _ _
        have h2 : ("HTTP/1.1 101 Switching Protocols\r\nUpgrade: websocket\r\nConnection: Upgrade\r\nSec-WebSocket-Accept: " : String).data
            <+: ("HTTP/1.1 101 Switching Protocols\r\nUpgrade: websocket\r\nConnection: Upgrade\r\nSec-WebSocket-Accept: "
              ++ generateWebSocketAcceptKey k ++ "\r\n\r\n").data := by
          rw [String.data_append, String.data_append, List.append_assoc]
          exact List.prefix_append _ _
        exact (h1.trans h2).isInfix
      · simp only [containsSubstr, decide_eq_true_eq]
        rw [String.data_append, String.data_append, List.append_assoc]
        exact List.infix_append' _ _ _
    · have hcond : (!containsSubstr c "Upgrade" || u != "websocket") = true := by
        simp [bne_iff_ne, hu]
      rw [handleWebSocketHandshake, hcond]
      simp [hu]
  · have hcond : (!containsSubstr c "Upgrade" || u != "websocket") = true := by
      simp [Bool.not_eq_true] at hc
      simp [hc]
    rw [handleWebSocketHandshake, hcond]
    simp [hc]

/-- C7 counterexample: for the request headers Connection: "upgrade",
Upgrade: "websocket" both of the claim's conditions hold ("upgrade" is a
case-insensitive token match for "Upgrade"), yet the server rejects the
handshake and writes no response. -/
theorem c7_counterexample :
    handleWebSocketHandshake "upgrade" "websocket" "key" = none
    ∧ spec_connectionTokenMatch "upgrade" = true := by
  exact ⟨by decide, by decide⟩

/-- C8: the claim fails on the code — the response validation slices bytes
[9:32] unconditionally, so any response shorter than 32 bytes (here the 2-byte
"OK") makes the Go slice expression panic (`none`) instead of returning an
error; on long-enough responses it accepts exactly when bytes 9..31 spell
"101 Switching Protocols". -/
theorem c8_short_response :
    Client.Handshake (strBytes "OK") = none
    ∧ Client.Handshake
        (strBytes "HTTP/1.1 101 Switching Protocols\r\nUpgrade: websocket\r\n\r\n") = some true
    ∧ Client.Handshake (strBytes "HTTP/1.1 400 Bad Request                        ")
      = some false := by
  refine ⟨by decide, by decide, by decide⟩

/-- The encoding of `tierFrame n` starts with the given header bytes and decodes
back to the frame: shared engine for the five length-tier checks. -/
theorem tierFrame_check (n : Nat) (hdr : List Nat) (h64 : n < 2 ^ 64)
    (hb0 : (129 : Nat) :: (if (tierFrame n).PayloadLen ≤ 125
        then [((tierFrame n).PayloadLen % 256) ||| 128]
        else if (tierFrame n).PayloadLen ≤ 65535
        then (126 ||| 128) :: beBytes 2 (tierFrame n).PayloadLen
        else (127 ||| 128) :: beBytes 8 (tierFrame n).PayloadLen) = hdr) :
    ∃ enc, Client.sendFrame (tierFrame n) = some enc ∧ hdr <+: enc
      ∧ ReadFrame enc = Except.ok (tierFrame n, []) := by
  obtain ⟨mp, hmp, hlenmp, hshape⟩ := sendFrame_shape (tierFrame n) rfl
  have hb0' : (if (tierFrame n).Fin then 128 ||| (tierFrame n).Opcode
      else (tierFrame n).Opcode) = 129 := by
    show (if true then 128 ||| 1 else 1 : Nat) = 129
    decide
  rw [hb0'] at hshape
  have hkey : (tierFrame n).MaskKey = [1, 2, 3, 4] := rfl
  rw [hkey] at hshape
  obtain ⟨enc, hsend, hread⟩ := sendFrame_ReadFrame (tierFrame n) [] rfl rfl
    (by show (1 : Nat) < 16; decide) (by simp [tierFrame]) h64
  rw [List.append_nil] at hread
  rw [hsend] at hshape
  have henc := Option.some.inj hshape
  refine ⟨enc, hsend, ?_, hread⟩
  rw [henc, ← hb0]
  refine ⟨[1, 2, 3, 4] ++ mp, ?_⟩
  simp

/-- C9: for payload lengths 0, 125, 126, 65535, 65536 the encoder emits the
correct length tier on the wire (7-bit indicator ≤ 125; indicator 126 plus
2-byte big-endian length for 126–65535; indicator 127 plus 8-byte big-endian
length above) and decoding the encoding recovers the frame — in particular the
exact original payload length. -/
theorem c9_length_tiers :
    (∃ enc, Client.sendFrame (tierFrame 0) = some enc ∧ [129, 128] <+: enc
      ∧ ReadFrame enc = Except.ok (tierFrame 0, []))
    ∧ (∃ enc, Client.sendFrame (tierFrame 125) = some enc ∧ [129, 253] <+: enc
      ∧ ReadFrame enc = Except.ok (tierFrame 125, []))
    ∧ (∃ enc, Client.sendFrame (tierFrame 126) = some enc ∧ [129, 254, 0, 126] <+: enc
      ∧ ReadFrame enc = Except.ok (tierFrame 126, []))
    ∧ (∃ enc, Client.sendFrame (tierFrame 65535) = some enc ∧ [129, 254, 255, 255] <+: enc
      ∧ ReadFrame enc = Except.ok (tierFrame 65535, []))
    ∧ (∃ enc, Client.sendFrame (tierFrame 65536) = some enc
      ∧ [129, 255, 0, 0, 0, 0, 0, 1, 0, 0] <+: enc
      ∧ ReadFrame enc = Except.ok (tierFrame 65536, [])) :=
  ⟨tierFrame_check 0 _ (by decide) (by decide),
   tierFrame_check 125 _ (by decide) (by decide),
   tierFrame_check 126 _ (by decide) (by decide),
   tierFrame_check 65535 _ (by decide) (by decide),
   tierFrame_check 65536 _ (by decide) (by decide)⟩

/-- C10: every frame written by the server's `sendFrame` is a single unmasked
unfragmented frame: first byte 0x81 (FIN + text), mask bit of byte 1 clear,
and the whole write decodes as exactly one frame carrying the entire payload
(leftover stream empty) — a payload above 65535 bytes stays in one frame with
the 8-byte extended length field. -/
theorem c10_server_single_frame (payload : List Nat) (h64 : payload.length < 2 ^ 64) :
    (sendFrame payload).head? = some 129
    ∧ (∃ b1, (sendFrame payload).get? 1 = some b1 ∧ b1 &&& 128 = 0)
    ∧ ReadFrame (sendFrame payload)
      = Except.ok ({ Fin := true, Opcode := 1, Masked := false,
                     PayloadLen := payload.length, MaskKey := [], Payload := payload }, [])
    ∧ (65535 < payload.length →
        sendFrame payload = 129 :: 127 :: (beBytes 8 payload.length ++ payload)) := by
  refine ⟨?_, ?_, sendFrame_server_ReadFrame payload h64, ?_⟩
  · by_cases h1 : payload.length ≤ 125
    · simp [sendFrame, h1]
    · by_cases h2 : payload.length ≤ 65535 <;> simp [sendFrame, h1, h2]
  · by_cases h1 : payload.length ≤ 125
    · have h256 : payload.length % 256 = payload.length := Nat.mod_eq_of_lt (by omega)
      refine ⟨payload.length, ?_, (or125_bits _ h1).2.2.1⟩
      simp [sendFrame, h1, h256]
    · by_cases h2 : payload.length ≤ 65535
      · refine ⟨126, ?_, by decide⟩
        simp [sendFrame, h1, h2]
      · refine ⟨127, ?_, by decide⟩
        simp [sendFrame, h1, h2]
  · intro hgt
    have h1 : ¬ payload.length ≤ 125 := by omega
    have h2 : ¬ payload.length ≤ 65535 := by omega
    simp [sendFrame, h1, h2]

/-- Witness for C10 at the concrete payload [5, 6]. -/
theorem c10_witness :
    ([5, 6] : List Nat).length < 2 ^ 64
    ∧ ((sendFrame [5, 6]).head? = some 129
      ∧ (∃ b1, (sendFrame [5, 6]).get? 1 = some b1 ∧ b1 &&& 128 = 0)
      ∧ ReadFrame (sendFrame [5, 6])
        = Except.ok ({ Fin := true, Opcode := 1, Masked := false,
                       PayloadLen := ([5, 6] : List Nat).length, MaskKey := [],
                       Payload := [5, 6] }, [])
      ∧ (65535 < ([5, 6] : List Nat).length →
          sendFrame [5, 6] = 129 :: 127 :: (beBytes 8 ([5, 6] : List Nat).length ++ [5, 6]))) :=
  ⟨by decide, c10_server_single_frame [5, 6] (by decide)⟩
